import Mathlib

/-!
Verification of the state & scheduling core of bun-cloud-agent.

This file shallowly embeds the SQLite-backed state layer
(`src/chat/state-adapter.ts`, `src/state/tasks.ts`, schema in
`src/state/db.ts`) and the cron task scheduler (`src/scheduler.ts`),
together with the task-management tool layer
(`src/skills/built-in/tasks.ts`), and proves the specified properties
about them.

Modelling conventions:
- each SQLite table is an association list keyed by its primary key;
  `INSERT OR REPLACE` removes any row with the key and appends the new
  row, `UPDATE ... WHERE` maps over rows, `DELETE ... WHERE` filters;
- `Date.now()` is an explicit `now : Nat` argument (milliseconds);
- `randomUUIDv7()` is modelled by a fresh counter `uuidCtr` carried in
  the database state: each generated token is the current counter value
  and the counter is incremented, which captures the library's
  guarantee that successively generated ids are distinct;
- a JavaScript `throw` crossing a function boundary is an
  `Except.error`; a function that cannot throw is total.
-/

namespace BunAgent

/-- Row of the `chat_cache` table (key is the association-list key).
`value` is the JSON-serialized payload, kept opaque. -/
structure CacheRow where
  value : String
  expires_at : Option Nat
deriving Repr, DecidableEq

/-- Row of the `chat_locks` table (thread_id is the key). -/
structure LockRow where
  token : Nat
  expires_at : Nat
deriving Repr, DecidableEq

/-- The `Lock` object returned by `acquireLock`. -/
structure Lock where
  threadId : String
  token : Nat
  expiresAt : Nat
deriving Repr, DecidableEq

/-- Row of the `scheduled_tasks` table (`src/state/tasks.ts` TaskRow). -/
structure TaskRow where
  id : String
  name : String
  cron : String
  prompt : String
  delivery : String
  enabled : Nat
  last_run_at : Option Nat
  next_run_at : Option Nat
  created_at : Nat
  updated_at : Nat
deriving Repr, DecidableEq

/-- Row of the `task_runs` table (`src/state/tasks.ts` TaskRunRow). -/
structure TaskRunRow where
  id : String
  task_id : String
  status : String
  result : Option String
  started_at : Nat
  finished_at : Option Nat
deriving Repr, DecidableEq

/-- The SQLite database state: the tables created by `initDatabase`
(`src/state/db.ts`) that the state & scheduling core touches, plus the
fresh-token counter modelling `randomUUIDv7`. -/
structure DB where
  chat_cache : List (String × CacheRow)
  chat_locks : List (String × LockRow)
  chat_subscriptions : List (String × Nat)
  scheduled_tasks : List TaskRow
  task_runs : List TaskRunRow
  uuidCtr : Nat
deriving Repr, DecidableEq

/-- `SELECT ... WHERE key = ?` on an association list. -/
def lookup1 {α : Type} (k : String) (l : List (String × α)) : Option α :=
  (l.find? (fun p => p.1 == k)).map (fun p => p.2)

/-- `INSERT OR REPLACE` on an association list with primary key `k`. -/
def upsert {α : Type} (k : String) (v : α) (l : List (String × α)) :
    List (String × α) :=
  l.filter (fun p => p.1 != k) ++ [(k, v)]

/-- `DELETE ... WHERE key = ?` on an association list. -/
def deleteKey {α : Type} (k : String) (l : List (String × α)) :
    List (String × α) :=
  l.filter (fun p => p.1 != k)

/-- The empty database (all tables empty, counter 0). -/
def dbEmpty : DB := ⟨[], [], [], [], [], 0⟩

/-! ## Cache (`SQLiteStateAdapter.get` / `set` / `delete`) -/

/-- `SQLiteStateAdapter.get`: lazy expiry on read.  The source guard is
`row.expires_at && row.expires_at < Date.now()`, where a JavaScript `0`
is falsy, hence the explicit `e ≠ 0` conjunct. -/
def cacheGet (db : DB) (now : Nat) (key : String) : Option String × DB :=
  match lookup1 key db.chat_cache with
  | none => (none, db)
  | some row =>
    match row.expires_at with
    | some e =>
      if e ≠ 0 ∧ e < now then
        (none, { db with chat_cache := deleteKey key db.chat_cache })
      else
        (some row.value, db)
    | none => (some row.value, db)

/-- `SQLiteStateAdapter.set`: `const expiresAt = ttlMs ? Date.now() + ttlMs : null`
(a missing or zero `ttlMs` is falsy and stores no expiry), then
`INSERT OR REPLACE`. -/
def cacheSet (db : DB) (now : Nat) (key value : String) (ttlMs : Option Nat) :
    DB :=
  let expiresAt : Option Nat :=
    match ttlMs with
    | some t => if t ≠ 0 then some (now + t) else none
    | none => none
  { db with chat_cache := upsert key ⟨value, expiresAt⟩ db.chat_cache }

/-- `SQLiteStateAdapter.delete`. -/
def cacheDelete (db : DB) (key : String) : DB :=
  { db with chat_cache := deleteKey key db.chat_cache }

/-! ## Locks (`SQLiteStateAdapter.acquireLock` / `extendLock` / `releaseLock`) -/

/-- Second half of `acquireLock`: generate a fresh token and
`INSERT OR REPLACE` the lock row. -/
def insertFreshLock (db : DB) (now : Nat) (threadId : String) (ttlMs : Nat) :
    Option Lock × DB :=
  let token := db.uuidCtr
  let expiresAt := now + ttlMs
  (some ⟨threadId, token, expiresAt⟩,
   { db with chat_locks := upsert threadId ⟨token, expiresAt⟩ db.chat_locks,
             uuidCtr := db.uuidCtr + 1 })

/-- `SQLiteStateAdapter.acquireLock`: sweep expired locks
(`DELETE FROM chat_locks WHERE expires_at < now`), return null when an
unexpired lock exists, otherwise store a fresh token. -/
def acquireLock (db : DB) (now : Nat) (threadId : String) (ttlMs : Nat) :
    Option Lock × DB :=
  let db1 :=
    { db with
      chat_locks := db.chat_locks.filter (fun p => !(decide (p.2.expires_at < now))) }
  match lookup1 threadId db1.chat_locks with
  | some existing =>
    if existing.expires_at > now then (none, db1)
    else insertFreshLock db1 now threadId ttlMs
  | none => insertFreshLock db1 now threadId ttlMs

/-- `SQLiteStateAdapter.extendLock`: true only when the stored token for
the thread equals the presented token (the stored expiry is not read);
on success `UPDATE chat_locks SET expires_at = now + ttl WHERE
thread_id = ? AND token = ?`. -/
def extendLock (db : DB) (now : Nat) (lock : Lock) (ttlMs : Nat) :
    Bool × DB :=
  match lookup1 lock.threadId db.chat_locks with
  | none => (false, db)
  | some existing =>
    if existing.token ≠ lock.token then (false, db)
    else
      let newExpiry := now + ttlMs
      (true,
       { db with chat_locks := db.chat_locks.map (fun p =>
           if p.1 == lock.threadId && p.2.token == lock.token then
             (p.1, ⟨p.2.token, newExpiry⟩)
           else p) })

/-- `SQLiteStateAdapter.releaseLock`: delete only on exact
(thread_id, token) match. -/
def releaseLock (db : DB) (lock : Lock) : DB :=
  { db with chat_locks := db.chat_locks.filter (fun p =>
      !(p.1 == lock.threadId && p.2.token == lock.token)) }

/-! ## Task store (`src/state/tasks.ts`) -/

/-- `createTask`: `INSERT INTO scheduled_tasks (...) VALUES (?, ?, ?, ?, ?, 1, ?, ?, ?)`
with `enabled = 1` and `last_run_at` absent. -/
def createTask (db : DB) (now : Nat) (id name cron prompt delivery : String)
    (nextRunAt : Option Nat) : DB :=
  { db with scheduled_tasks := db.scheduled_tasks ++
      [⟨id, name, cron, prompt, delivery, 1, none, nextRunAt, now, now⟩] }

/-- `getTask`: `SELECT * FROM scheduled_tasks WHERE id = ?`. -/
def getTask (db : DB) (id : String) : Option TaskRow :=
  db.scheduled_tasks.find? (fun t => t.id == id)

/-- Partial update object accepted by `updateTask`. -/
structure TaskUpdates where
  name : Option String
  cron : Option String
  prompt : Option String
  delivery : Option String
  enabled : Option Nat
  next_run_at : Option (Option Nat)
deriving Repr, DecidableEq

/-- The all-absent update object. -/
def noUpdates : TaskUpdates := ⟨none, none, none, none, none, none⟩

/-- `updateTask`: only the fields present in the partial object are
changed; a no-field update is a no-op; `updated_at` is refreshed when
any field is present. -/
def updateTask (db : DB) (now : Nat) (id : String) (u : TaskUpdates) : DB :=
  if u.name.isNone && u.cron.isNone && u.prompt.isNone && u.delivery.isNone
      && u.enabled.isNone && u.next_run_at.isNone then
    db
  else
    { db with scheduled_tasks := db.scheduled_tasks.map (fun t =>
        if t.id == id then
          { t with
            name := u.name.getD t.name
            cron := u.cron.getD t.cron
            prompt := u.prompt.getD t.prompt
            delivery := u.delivery.getD t.delivery
            enabled := u.enabled.getD t.enabled
            next_run_at := u.next_run_at.getD t.next_run_at
            updated_at := now }
        else t) }

/-- `deleteTask`: `DELETE FROM scheduled_tasks WHERE id = ?`.  The
schema (`src/state/db.ts`) declares `task_runs ... FOREIGN KEY (task_id)
REFERENCES scheduled_tasks(id) ON DELETE CASCADE` and the engine runs
with `PRAGMA foreign_keys = ON`, so the delete cascades to `task_runs`. -/
def deleteTask (db : DB) (id : String) : DB :=
  { db with
    scheduled_tasks := db.scheduled_tasks.filter (fun t => t.id != id)
    task_runs := db.task_runs.filter (fun r => r.task_id != id) }

/-- `markTaskRun`: `UPDATE scheduled_tasks SET last_run_at = ?,
next_run_at = ?, updated_at = ? WHERE id = ?`. -/
def markTaskRun (db : DB) (now : Nat) (taskId : String) (lastRunAt : Nat)
    (nextRunAt : Option Nat) : DB :=
  { db with scheduled_tasks := db.scheduled_tasks.map (fun t =>
      if t.id == taskId then
        { t with
          last_run_at := some lastRunAt
          next_run_at := nextRunAt
          updated_at := now }
      else t) }

/-- `getDueTasks`: `SELECT * FROM scheduled_tasks WHERE enabled = 1 AND
next_run_at IS NOT NULL AND next_run_at <= ?`. -/
def getDueTasks (db : DB) (now : Nat) : List TaskRow :=
  db.scheduled_tasks.filter (fun t =>
    t.enabled == 1 &&
      (match t.next_run_at with
       | some n => decide (n ≤ now)
       | none => false))

/-- `createTaskRun`: `INSERT INTO task_runs (id, task_id, status,
started_at) VALUES (?, ?, 'running', ?)`. -/
def createTaskRun (db : DB) (now : Nat) (id taskId : String) : DB :=
  { db with task_runs := db.task_runs ++
      [⟨id, taskId, "running", none, now, none⟩] }

/-- `completeTaskRun`: `UPDATE task_runs SET status = ?, result = ?,
finished_at = ? WHERE id = ?`. -/
def completeTaskRun (db : DB) (now : Nat) (id status result : String) : DB :=
  { db with task_runs := db.task_runs.map (fun r =>
      if r.id == id then
        { r with status := status, result := some result,
                 finished_at := some now }
      else r) }

/-- Descending insertion by `started_at`, modelling
`ORDER BY started_at DESC`. -/
def insertRunDesc (r : TaskRunRow) : List TaskRunRow → List TaskRunRow
  | [] => [r]
  | x :: xs =>
    if x.started_at ≤ r.started_at then r :: x :: xs
    else x :: insertRunDesc r xs

/-- Sort task runs by `started_at` descending. -/
def sortRunsDesc : List TaskRunRow → List TaskRunRow
  | [] => []
  | x :: xs => insertRunDesc x (sortRunsDesc xs)

/-- `getTaskRuns`: `SELECT * FROM task_runs WHERE task_id = ? ORDER BY
started_at DESC LIMIT ?`. -/
def getTaskRuns (db : DB) (taskId : String) (limit : Nat) : List TaskRunRow :=
  (sortRunsDesc (db.task_runs.filter (fun r => r.task_id == taskId))).take limit

/-! ## Cron evaluation

The repository delegates cron parsing and next-fire computation to the
external `croner` library (`new Cron(expr, \x7b timezone: "UTC" \x7d)` and
`cron.nextRun()`), an external dependency not part of this repository.
We model the standard 5-field grammar (minute, hour, day-of-month,
month, day-of-week), restricted to `*` and single numeric values, over a
simplified flat calendar at minute granularity; no claim below depends
on calendar arithmetic, only on whether construction succeeds and on the
value being passed through. -/

/-- Split a character list into space-separated words (used instead of
`String.splitOn` so that everything reduces in the kernel). -/
def wordsAux : List Char → List Char → List String
  | [], acc => if acc.isEmpty then [] else [String.mk acc.reverse]
  | c :: cs, acc =>
    if c = ' ' then
      if acc.isEmpty then wordsAux cs []
      else String.mk acc.reverse :: wordsAux cs []
    else wordsAux cs (c :: acc)

/-- The space-separated fields of a cron expression. -/
def cronFields (expr : String) : List String :=
  wordsAux expr.data []

/-- Parse a decimal numeral from characters. -/
def parseNatAux : List Char → Nat → Option Nat
  | [], acc => some acc
  | c :: cs, acc =>
    if '0' ≤ c ∧ c ≤ '9' then
      parseNatAux cs (acc * 10 + (c.toNat - '0'.toNat))
    else none

/-- Parse a non-empty decimal numeral. -/
def parseNatStr (s : String) : Option Nat :=
  if s.data.isEmpty then none else parseNatAux s.data 0

/-- One cron field: `*` or a single in-range number. -/
inductive CronField where
  | star : CronField
  | num : Nat → CronField
deriving Repr, DecidableEq

/-- A parsed 5-field cron schedule (the evaluator object whose
construction `new Cron(expr)` attempts). -/
structure CronSched where
  minute : CronField
  hour : CronField
  dom : CronField
  month : CronField
  dow : CronField
deriving Repr, DecidableEq

/-- Parse one field against its numeric range. -/
def parseCronField (lo hi : Nat) (s : String) : Option CronField :=
  if s == "*" then some CronField.star
  else
    match parseNatStr s with
    | some n => if lo ≤ n ∧ n ≤ hi then some (CronField.num n) else none
    | none => none

/-- `new Cron(expr)`: succeeds exactly on a well-formed 5-field
expression; an invalid expression throws (here: `none`). -/
def cronParse (expr : String) : Option CronSched :=
  match cronFields expr with
  | [m, h, d, mo, w] => do
    let mf ← parseCronField 0 59 m
    let hf ← parseCronField 0 23 h
    let df ← parseCronField 1 31 d
    let mof ← parseCronField 1 12 mo
    let wf ← parseCronField 0 6 w
    pure ⟨mf, hf, df, mof, wf⟩
  | _ => none

/-- Does a field accept a value. -/
def matchesField : CronField → Nat → Bool
  | CronField.star, _ => true
  | CronField.num n, v => n == v

/-- Does the schedule fire at flat-calendar minute `t`. -/
def cronMatches (c : CronSched) (t : Nat) : Bool :=
  matchesField c.minute (t % 60) &&
  matchesField c.hour (t / 60 % 24) &&
  matchesField c.dom (t / 1440 % 30 + 1) &&
  matchesField c.month (t / 43200 % 12 + 1) &&
  matchesField c.dow (t / 1440 % 7)

/-- Bounded search for the next matching minute. -/
def cronNextAux (c : CronSched) : Nat → Nat → Option Nat
  | 0, _ => none
  | fuel + 1, t => if cronMatches c t then some t else cronNextAux c fuel (t + 1)

/-- `cron.nextRun()`: the next fire time strictly after `now`, searched
over the following year of minutes (`none` when the schedule never
fires in that window). -/
def cronNext (c : CronSched) (now : Nat) : Option Nat :=
  cronNextAux c 525600 (now + 1)

/-! ## Scheduler (`src/scheduler.ts`, class `TaskScheduler`) -/

/-- In-memory scheduler state: the `Map` of armed cron timers keyed by
task id, and the `running` flag. -/
structure Sched where
  crons : List (String × CronSched)
  running : Bool
deriving Repr, DecidableEq

/-- Outcome of one `agent.generate` invocation (the Prompt Executor
collaborator): it resolves with a result whose `.text` may or may not
be a string, or it throws with a message. -/
inductive ExecOutcome where
  | ok : Option String → ExecOutcome
  | err : String → ExecOutcome
deriving Repr, DecidableEq

/-- A Prompt Executor: prompt text to outcome. -/
def Executor : Type := String → ExecOutcome

/-- The delivery instruction appended to the task prompt when
`JSON.parse(task.delivery)` yields an object with a truthy `type`
(JSON parsing is an external library; we model the truthy-`type` check
as presence of a `"type"` key; a parse failure is caught locally and
yields the empty instruction, never an exception). -/
def charsBeginWith : List Char → List Char → Bool
  | [], _ => true
  | _ :: _, [] => false
  | a :: as, b :: bs => a = b && charsBeginWith as bs

/-- Substring occurrence on character lists. -/
def charsContain (pat : List Char) : List Char → Bool
  | [] => charsBeginWith pat []
  | c :: cs => charsBeginWith pat (c :: cs) || charsContain pat cs

def deliveryInstructionOf (delivery : String) : String :=
  if charsContain "\"type\"".data delivery.data then
    " After completing the task, deliver the result using the deliver_message tool to: "
      ++ delivery
  else ""

/-- `TaskScheduler.executeTask`: insert a `running` run row, build the
effective prompt, invoke the executor; on success record the run as
`success` (substituting a placeholder when `.text` is not a string), on
a thrown failure catch it and record the run as `error` with the
message; in both branches, when this task has an armed timer, persist
`(startedAt, cron.nextRun())` through `markTaskRun`.  Every throwing
operation inside is wrapped by the `try`/`catch`, so the method always
resolves (returns `Except.ok`) with the response or error text.  The
timer registry is returned unchanged (the method only reads it). -/
def executeTask (exec : Executor) (now : Nat) (runId : String)
    (sched : Sched) (db : DB) (task : TaskRow) :
    Except String (String × Sched × DB) :=
  let startedAt := now
  let db1 := createTaskRun db now runId task.id
  let fullPrompt := task.prompt ++ deliveryInstructionOf task.delivery
  match exec fullPrompt with
  | ExecOutcome.ok textOpt =>
    let text := textOpt.getD "Task completed (no text output)"
    let db2 := completeTaskRun db1 now runId "success" text
    let db3 :=
      match lookup1 task.id sched.crons with
      | some c => markTaskRun db2 now task.id startedAt (cronNext c now)
      | none => db2
    Except.ok (text, sched, db3)
  | ExecOutcome.err msg =>
    let db2 := completeTaskRun db1 now runId "error" msg
    let db3 :=
      match lookup1 task.id sched.crons with
      | some c => markTaskRun db2 now task.id startedAt (cronNext c now)
      | none => db2
    Except.ok (msg, sched, db3)

/-- `TaskScheduler.runNow`: look the task up; a missing task throws
`Task <id> not found`; otherwise delegate to `executeTask`. -/
def runNow (exec : Executor) (now : Nat) (runId : String)
    (sched : Sched) (db : DB) (taskId : String) :
    Except String (String × Sched × DB) :=
  match getTask db taskId with
  | none => Except.error ("Task " ++ taskId ++ " not found")
  | some task => executeTask exec now runId sched db task

/-- `TaskScheduler.scheduleTask`: construct the cron timer (an invalid
expression throws and is caught and logged, leaving state untouched),
persist the timer's first `nextRun()` through `markTaskRun` with
`lastRunAt = task.last_run_at ?? 0`, and register the timer. -/
def scheduleTask (sched : Sched) (db : DB) (now : Nat) (task : TaskRow) :
    Sched × DB :=
  match cronParse task.cron with
  | none => (sched, db)
  | some c =>
    let db1 :=
      match cronNext c now with
      | some next => markTaskRun db now task.id (task.last_run_at.getD 0) (some next)
      | none => db
    ({ sched with crons := upsert task.id c sched.crons }, db1)

/-- `TaskScheduler.reload`: disarm any existing timer for the task,
re-read it, and re-arm only when the task still exists, is enabled, and
the scheduler is running. -/
def reload (sched : Sched) (db : DB) (now : Nat) (taskId : String) :
    Sched × DB :=
  let sched1 := { sched with crons := deleteKey taskId sched.crons }
  match getTask db taskId with
  | none => (sched1, db)
  | some task =>
    if task.enabled == 1 && sched1.running then scheduleTask sched1 db now task
    else (sched1, db)

/-- `TaskScheduler.remove`: disarm and forget the timer only. -/
def removeTimer (sched : Sched) (taskId : String) : Sched :=
  { sched with crons := deleteKey taskId sched.crons }

/-! ## Task-management tools (`src/skills/built-in/tasks.ts`)

Each tool resolves with a structured object; `error` constructors model
the `\x7b error: ... \x7d` returns. -/

/-- Result object of the `create_task` tool. -/
inductive CreateTaskResult where
  | error : String → CreateTaskResult
  | created : String → String → String → Option Nat → CreateTaskResult
deriving Repr, DecidableEq

/-- Result object of the `update_task` tool. -/
inductive UpdateTaskResult where
  | error : String → UpdateTaskResult
  | updated : String → UpdateTaskResult
deriving Repr, DecidableEq

/-- Result object of the `delete_task` tool. -/
inductive DeleteTaskResult where
  | error : String → DeleteTaskResult
  | deleted : String → String → DeleteTaskResult
deriving Repr, DecidableEq

/-- Result object of the `run_task_now` tool. -/
inductive RunTaskNowResult where
  | error : String → RunTaskNowResult
  | executed : String → String → RunTaskNowResult
deriving Repr, DecidableEq

/-- `create_task.execute`: validate the cron expression by constructing
an evaluator; on failure return the error object with nothing written;
otherwise compute the first fire time, insert the task row, and tell
the scheduler (when available) to reload it.  `id` stands for the
generated `randomUUIDv7()`. -/
def createTaskExecute (getSched : Option Sched) (db : DB) (now : Nat)
    (id name cron prompt : String) (delivery : Option String) :
    CreateTaskResult × Option Sched × DB :=
  match cronParse cron with
  | none => (CreateTaskResult.error ("Invalid cron expression: " ++ cron),
             getSched, db)
  | some c =>
    let deliveryJson := delivery.getD "\x7b\x7d"
    let nextRun := cronNext c now
    let db1 := createTask db now id name cron prompt deliveryJson nextRun
    match getSched with
    | some sched =>
      let sdb := reload sched db1 now id
      (CreateTaskResult.created id name cron nextRun, some sdb.1, sdb.2)
    | none => (CreateTaskResult.created id name cron nextRun, none, db1)

/-- Arguments of the `update_task` tool (absent field = not provided). -/
structure UpdateArgs where
  name : Option String
  cron : Option String
  prompt : Option String
  delivery : Option String
  enabled : Option Bool
deriving Repr, DecidableEq

/-- `update_task.execute`: a missing task yields the `not found` error
object with nothing written; a provided non-empty cron (`if (cron)` —
the empty string is falsy) is validated before any write; then the
partial update is applied and the scheduler reloaded. -/
def updateTaskExecute (getSched : Option Sched) (db : DB) (now : Nat)
    (id : String) (args : UpdateArgs) :
    UpdateTaskResult × Option Sched × DB :=
  match getTask db id with
  | none => (UpdateTaskResult.error ("Task " ++ id ++ " not found"),
             getSched, db)
  | some _ =>
    let cronInvalid :=
      match args.cron with
      | some cr => cr ≠ "" && (cronParse cr).isNone
      | none => false
    if cronInvalid then
      (UpdateTaskResult.error
         ("Invalid cron expression: " ++ (args.cron.getD "")), getSched, db)
    else
      let db1 := updateTask db now id
        ⟨args.name, args.cron, args.prompt, args.delivery,
         args.enabled.map (fun b => if b then 1 else 0), none⟩
      match getSched with
      | some sched =>
        let sdb := reload sched db1 now id
        (UpdateTaskResult.updated id, some sdb.1, sdb.2)
      | none => (UpdateTaskResult.updated id, none, db1)

/-- `delete_task.execute`: a missing task yields the `not found` error
object with nothing written; otherwise the timer is removed and the row
deleted (cascading to its runs). -/
def deleteTaskExecute (getSched : Option Sched) (db : DB) (id : String) :
    DeleteTaskResult × Option Sched × DB :=
  match getTask db id with
  | none => (DeleteTaskResult.error ("Task " ++ id ++ " not found"),
             getSched, db)
  | some existing =>
    (DeleteTaskResult.deleted id existing.name,
     getSched.map (fun s => removeTimer s id), deleteTask db id)

/-- `run_task_now.execute`: without a scheduler return the unavailable
error object; otherwise await `runNow` inside `try`/`catch`, converting
a thrown error into the structured error object and truncating a
successful result to 2000 characters. -/
def runTaskNowExecute (exec : Executor) (getSched : Option Sched)
    (db : DB) (now : Nat) (runId id : String) : RunTaskNowResult × DB :=
  match getSched with
  | none => (RunTaskNowResult.error "Scheduler not available", db)
  | some sched =>
    match runNow exec now runId sched db id with
    | Except.error msg => (RunTaskNowResult.error msg, db)
    | Except.ok (text, _, db1) =>
      (RunTaskNowResult.executed id (String.mk (text.data.take 2000)), db1)

/-! ## Association-list lemmas -/

theorem lookup1_append_left {α : Type} (k : String) (l1 l2 : List (String × α))
    (h : ∀ p ∈ l1, p.1 ≠ k) : lookup1 k (l1 ++ l2) = lookup1 k l2 := by
  induction l1 with
  | nil => rfl
  | cons a as ih =>
    have ha : (a.1 == k) = false := by
      simpa [beq_iff_eq] using h a (List.mem_cons_self a as)
    simp only [List.cons_append, lookup1, List.find?_cons, ha]
    exact ih (fun p hp => h p (List.mem_cons_of_mem a hp))

theorem lookup1_upsert_self {α : Type} (k : String) (v : α)
    (l : List (String × α)) : lookup1 k (upsert k v l) = some v := by
  unfold upsert
  rw [lookup1_append_left]
  · simp [lookup1]
  · intro p hp
    simpa [bne_iff_ne] using (List.mem_filter.mp hp).2

theorem lookup1_filter_upsert {α : Type} (k : String) (v : α)
    (l : List (String × α)) (q : String × α → Bool) :
    lookup1 k ((upsert k v l).filter q) =
      if q (k, v) then some v else none := by
  unfold upsert
  rw [List.filter_append, lookup1_append_left]
  · cases hq : q (k, v) <;> simp [lookup1, hq]
  · intro p hp
    have hp2 := List.mem_of_mem_filter hp
    simpa [bne_iff_ne] using (List.mem_filter.mp hp2).2

theorem lookup1_deleteKey_self {α : Type} (k : String)
    (l : List (String × α)) : lookup1 k (deleteKey k l) = none := by
  unfold deleteKey lookup1
  rw [List.find?_eq_none.mpr]
  · rfl
  · intro p hp
    simpa [bne_iff_ne] using (List.mem_filter.mp hp).2

/-- Shape of a successful `acquireLock`: the returned lock carries the
fresh token (the current counter) and expiry `now + ttl`, and the new
state holds exactly that row for the resource on top of the swept
table. -/
theorem acquireLock_success_shape (db : DB) (t : Nat) (R : String) (ttl : Nat)
    (l : Lock) (db1 : DB)
    (h : acquireLock db t R ttl = (some l, db1)) :
    l = ⟨R, db.uuidCtr, t + ttl⟩ ∧
    db1.uuidCtr = db.uuidCtr + 1 ∧
    db1.chat_locks = upsert R ⟨db.uuidCtr, t + ttl⟩
      (db.chat_locks.filter (fun p => !(decide (p.2.expires_at < t)))) := by
  simp only [acquireLock, insertFreshLock] at h
  split at h
  · split at h
    · simp at h
    · obtain ⟨h1, h2⟩ := Prod.mk.injEq .. ▸ h
      refine ⟨(Option.some.inj h1).symm, ?_, ?_⟩ <;> rw [← h2]
  · obtain ⟨h1, h2⟩ := Prod.mk.injEq .. ▸ h
    refine ⟨(Option.some.inj h1).symm, ?_, ?_⟩ <;> rw [← h2]

/-- C3: after a successful `acquire(R, ttl)` at time `t`, any
re-acquire before `t + ttl` with no intervening release returns null,
and any re-acquire once `t + ttl` has elapsed succeeds with a token
different from the first. -/
theorem C3_lock_ttl_exclusion_and_reclaim (db : DB) (t ttl : Nat)
    (R : String) (l : Lock) (db1 : DB)
    (hacq : acquireLock db t R ttl = (some l, db1)) :
    (∀ t2 ttl2, t2 < t + ttl → (acquireLock db1 t2 R ttl2).1 = none) ∧
    (∀ t2 ttl2, t + ttl ≤ t2 →
      (acquireLock db1 t2 R ttl2).1 = some ⟨R, db.uuidCtr + 1, t2 + ttl2⟩ ∧
      db.uuidCtr + 1 ≠ l.token) := by
  obtain ⟨hl, hctr, hlocks⟩ := acquireLock_success_shape db t R ttl l db1 hacq
  constructor
  · intro t2 ttl2 h2
    have hlk : lookup1 R (db1.chat_locks.filter
        (fun p => !(decide (p.2.expires_at < t2)))) =
        some ⟨db.uuidCtr, t + ttl⟩ := by
      rw [hlocks, lookup1_filter_upsert]
      have hnot : ¬ (t + ttl < t2) := by omega
      simp [hnot]
    simp only [acquireLock, hlk]
    have hgt : t + ttl > t2 := h2
    simp [hgt]
  · intro t2 ttl2 h2
    have hlk : lookup1 R (db1.chat_locks.filter
        (fun p => !(decide (p.2.expires_at < t2)))) =
        if t + ttl < t2 then none else some ⟨db.uuidCtr, t + ttl⟩ := by
      rw [hlocks, lookup1_filter_upsert]
      by_cases hc : t + ttl < t2 <;> simp [hc]
    refine ⟨?_, ?_⟩
    · by_cases hc : t + ttl < t2
      · rw [if_pos hc] at hlk
        simp only [acquireLock, insertFreshLock, hlk]
        rw [hctr]
      · rw [if_neg hc] at hlk
        have hngt : ¬ ((⟨db.uuidCtr, t + ttl⟩ : LockRow).expires_at > t2) := by
          simp only []
          omega
        simp only [acquireLock, insertFreshLock, hlk]
        rw [if_neg hngt, hctr]
    · rw [hl]
      simp

/-- Witness for C3: acquire `thread-1` for 50 ms at time 0 on the empty
store; re-acquiring at time 10 returns null, re-acquiring at time 60
succeeds with the next fresh token. -/
theorem C3_witness :
    acquireLock dbEmpty 0 "thread-1" 50 =
      (some ⟨"thread-1", 0, 50⟩, ⟨[], [("thread-1", ⟨0, 50⟩)], [], [], [], 1⟩) ∧
    (acquireLock ⟨[], [("thread-1", ⟨0, 50⟩)], [], [], [], 1⟩ 10 "thread-1" 50).1
      = none ∧
    (acquireLock ⟨[], [("thread-1", ⟨0, 50⟩)], [], [], [], 1⟩ 60 "thread-1" 50).1
      = some ⟨"thread-1", 1, 110⟩ ∧ (1 : Nat) ≠ 0 := by
  have h := C3_lock_ttl_exclusion_and_reclaim dbEmpty 0 50 "thread-1"
    ⟨"thread-1", 0, 50⟩ ⟨[], [("thread-1", ⟨0, 50⟩)], [], [], [], 1⟩ (by decide)
  have h60 := h.2 60 50 (by decide)
  exact ⟨by decide, h.1 10 50 (by decide), h60.1, h60.2⟩

/-- C1: creating a task with an invalid cron expression is rejected by
the attempted evaluator construction before anything is written: the
tool returns the error object, and both the database and the scheduler
handle are returned unchanged. -/
theorem C1_create_validates_cron_before_write (gs : Option Sched) (db : DB)
    (now : Nat) (id name cron prompt : String) (delivery : Option String)
    (hbad : cronParse cron = none) :
    createTaskExecute gs db now id name cron prompt delivery =
      (CreateTaskResult.error ("Invalid cron expression: " ++ cron), gs, db) := by
  simp only [createTaskExecute, hbad]

/-- Witness for C1 at the invalid expression `"not a cron"`. -/
theorem C1_witness :
    cronParse "not a cron" = none ∧
    createTaskExecute none dbEmpty 0 "t1" "Bad" "not a cron" "p" none =
      (CreateTaskResult.error ("Invalid cron expression: " ++ "not a cron"),
       none, dbEmpty) :=
  ⟨by decide, C1_create_validates_cron_before_write none dbEmpty 0 "t1" "Bad"
    "not a cron" "p" none (by decide)⟩

/-- C6: deleting a task removes its row and, through the schema's
`ON DELETE CASCADE` foreign key, every one of its runs, whatever their
number: `listRuns` afterwards is empty for any limit. -/
theorem C6_delete_cascades_runs (db : DB) (id : String) (limit : Nat) :
    getTask (deleteTask db id) id = none ∧
    getTaskRuns (deleteTask db id) id limit = [] := by
  constructor
  · unfold getTask deleteTask
    rw [List.find?_eq_none.mpr]
    intro t ht
    simpa [bne_iff_ne] using (List.mem_filter.mp ht).2
  · unfold getTaskRuns deleteTask
    have hnil : (db.task_runs.filter (fun r => r.task_id != id)).filter
        (fun r => r.task_id == id) = [] := by
      rw [List.filter_eq_nil_iff]
      intro r hr
      simpa [bne_iff_ne] using (List.mem_filter.mp hr).2
    simp only [hnil]
    rw [show sortRunsDesc [] = [] from rfl, List.take_nil]

/-- C9: `getDueTasks(now)` returns exactly the stored tasks that are
enabled and carry a non-null `next_run_at ≤ now`; in particular no
disabled task is ever included. -/
theorem C9_getDueTasks_exact (db : DB) (now : Nat) (t : TaskRow) :
    t ∈ getDueTasks db now ↔
      t ∈ db.scheduled_tasks ∧ t.enabled = 1 ∧
        ∃ n, t.next_run_at = some n ∧ n ≤ now := by
  unfold getDueTasks
  rw [List.mem_filter]
  simp only [Bool.and_eq_true, beq_iff_eq]
  constructor
  · rintro ⟨hmem, hen, hdue⟩
    refine ⟨hmem, hen, ?_⟩
    cases hnr : t.next_run_at with
    | none => rw [hnr] at hdue; exact absurd hdue (by simp)
    | some n =>
      rw [hnr] at hdue
      exact ⟨n, rfl, by simpa using hdue⟩
  · rintro ⟨hmem, hen, n, hnr, hle⟩
    refine ⟨hmem, hen, ?_⟩
    rw [hnr]
    simpa using hle

/-- `find?` skips an appended-to prefix without a match. -/
theorem find?_append_of_none {α : Type} (p : α → Bool) (l1 l2 : List α)
    (h : l1.find? p = none) : (l1 ++ l2).find? p = l2.find? p := by
  induction l1 with
  | nil => rfl
  | cons a as ih =>
    cases hpa : p a with
    | true => simp [List.find?_cons, hpa] at h
    | false =>
      simp only [List.find?_cons, hpa] at h
      simpa only [List.cons_append, List.find?_cons, hpa] using ih h

/-- `completeTaskRun` leaves rows with other ids untouched. -/
theorem map_complete_of_fresh (l : List TaskRunRow) (runId st res : String)
    (now : Nat) (hfresh : ∀ r ∈ l, r.id ≠ runId) :
    l.map (fun r => if r.id == runId then
        { r with status := st, result := some res, finished_at := some now }
      else r) = l := by
  induction l with
  | nil => rfl
  | cons a as ih =>
    have ha : (a.id == runId) = false := by
      simpa [beq_iff_eq] using hfresh a (List.mem_cons_self a as)
    simp only [List.map_cons, ha, Bool.false_eq_true, if_false]
    rw [ih (fun r hr => hfresh r (List.mem_cons_of_mem a hr))]

/-- Inserting a fresh `running` run and completing it leaves exactly the
finalized row under the run id. -/
theorem run_lifecycle_find (db : DB) (now : Nat) (runId taskId st res : String)
    (hfresh : ∀ r ∈ db.task_runs, r.id ≠ runId) :
    (completeTaskRun (createTaskRun db now runId taskId) now runId st
        res).task_runs.find? (fun r => r.id == runId) =
      some ⟨runId, taskId, st, some res, now, some now⟩ := by
  simp only [completeTaskRun, createTaskRun, List.map_append,
    map_complete_of_fresh db.task_runs runId st res now hfresh]
  rw [find?_append_of_none]
  · simp [List.find?_cons]
  · exact List.find?_eq_none.mpr
      (fun r hr => by simpa [beq_iff_eq] using hfresh r hr)

/-- `markTaskRun` never changes any task's id or enabled flag. -/
theorem map_ids_enabled_mark (l : List TaskRow) (now : Nat) (taskId : String)
    (la : Nat) (na : Option Nat) :
    (l.map (fun t => if t.id == taskId then
        { t with last_run_at := some la, next_run_at := na, updated_at := now }
      else t)).map (fun t => (t.id, t.enabled)) =
      l.map (fun t => (t.id, t.enabled)) := by
  induction l with
  | nil => rfl
  | cons a as ih =>
    simp only [List.map_cons]
    cases h : (a.id == taskId) with
    | true => rw [if_pos rfl, ih]
    | false => rw [if_neg (by simp), ih]

/-- C2: when the Prompt Executor throws, `executeTask` catches the
failure, records the run as `error` with the failure message, resolves
normally (`Except.ok`, never an exception past the Scheduler boundary),
and leaves every task's enabled flag unchanged. -/
theorem C2_executor_failure_contained (exec : Executor) (now : Nat)
    (runId : String) (sched : Sched) (db : DB) (task : TaskRow) (msg : String)
    (hfresh : ∀ r ∈ db.task_runs, r.id ≠ runId)
    (hfail : exec (task.prompt ++ deliveryInstructionOf task.delivery) =
      ExecOutcome.err msg) :
    ∃ db1, executeTask exec now runId sched db task =
        Except.ok (msg, sched, db1) ∧
      db1.task_runs.find? (fun r => r.id == runId) =
        some ⟨runId, task.id, "error", some msg, now, some now⟩ ∧
      db1.scheduled_tasks.map (fun t => (t.id, t.enabled)) =
        db.scheduled_tasks.map (fun t => (t.id, t.enabled)) := by
  simp only [executeTask, hfail]
  cases hc : lookup1 task.id sched.crons with
  | none =>
    exact ⟨_, rfl, run_lifecycle_find db now runId task.id "error" msg hfresh,
      rfl⟩
  | some c =>
    exact ⟨_, rfl, run_lifecycle_find db now runId task.id "error" msg hfresh,
      map_ids_enabled_mark db.scheduled_tasks now task.id now (cronNext c now)⟩

/-- Concrete fixtures for witnesses: a single enabled task `t1` with no
recorded runs, an idle scheduler, and trivial executors. -/
def taskT1 : TaskRow :=
  ⟨"t1", "Daily digest", "* * * * *", "p", "\x7b\x7d", 1, none, none, 0, 0⟩

def dbT1 : DB := ⟨[], [], [], [taskT1], [], 0⟩

def schedIdle : Sched := ⟨[], false⟩

def execBoom : Executor := fun _ => ExecOutcome.err "boom"

def execOkHi : Executor := fun _ => ExecOutcome.ok (some "hi")

/-- Witness for C2: a throwing executor on task `t1`. -/
theorem C2_witness :
    ∃ db1, executeTask execBoom 5 "r1" schedIdle dbT1 taskT1 =
        Except.ok ("boom", schedIdle, db1) ∧
      db1.task_runs.find? (fun r => r.id == "r1") =
        some ⟨"r1", "t1", "error", some "boom", 5, some 5⟩ ∧
      db1.scheduled_tasks.map (fun t => (t.id, t.enabled)) =
        dbT1.scheduled_tasks.map (fun t => (t.id, t.enabled)) :=
  C2_executor_failure_contained execBoom 5 "r1" schedIdle dbT1 taskT1 "boom"
    (by intro r hr; cases hr) rfl

/-- C7 amended: every execution through `executeTask` resolves with the
timer registry untouched; when a timer is armed for the task it persists
`lastRunAt = startedAt` together with the timer's recomputed
`nextRunAt`, but when no timer is armed (e.g. `runNow` on a task whose
timer has never been started) the task row is left unchanged. -/
theorem C7_next_run_persisted_only_when_armed (exec : Executor) (now : Nat)
    (runId : String) (sched : Sched) (db : DB) (task : TaskRow) :
    ∃ text db1,
      executeTask exec now runId sched db task = Except.ok (text, sched, db1) ∧
      (∀ c, lookup1 task.id sched.crons = some c →
        db1.scheduled_tasks = db.scheduled_tasks.map (fun t =>
          if t.id == task.id then
            { t with last_run_at := some now, next_run_at := cronNext c now,
                     updated_at := now }
          else t)) ∧
      (lookup1 task.id sched.crons = none →
        db1.scheduled_tasks = db.scheduled_tasks) := by
  simp only [executeTask]
  cases hx : exec (task.prompt ++ deliveryInstructionOf task.delivery) with
  | ok textOpt =>
    cases hc : lookup1 task.id sched.crons with
    | none =>
      refine ⟨_, _, rfl, ?_, fun _ => rfl⟩
      intro c h
      exact Option.noConfusion h
    | some c0 =>
      refine ⟨_, _, rfl, ?_, ?_⟩
      · intro c h
        obtain rfl : c0 = c := Option.some.inj h
        rfl
      · intro h
        exact Option.noConfusion h
  | err msg =>
    cases hc : lookup1 task.id sched.crons with
    | none =>
      refine ⟨_, _, rfl, ?_, fun _ => rfl⟩
      intro c h
      exact Option.noConfusion h
    | some c0 =>
      refine ⟨_, _, rfl, ?_, ?_⟩
      · intro c h
        obtain rfl : c0 = c := Option.some.inj h
        rfl
      · intro h
        exact Option.noConfusion h

/-- The `* * * * *` schedule and a scheduler with an armed timer for
`t1`. -/
def cronStar : CronSched :=
  ⟨CronField.star, CronField.star, CronField.star, CronField.star,
   CronField.star⟩

def schedArmed : Sched := ⟨[("t1", cronStar)], true⟩

/-- Witness for C7: with an armed timer, an execution persists
`lastRunAt` and the recomputed `nextRunAt` on the task row. -/
theorem C7_witness :
    ∃ text db1,
      executeTask execOkHi 5 "r1" schedArmed dbT1 taskT1 =
        Except.ok (text, schedArmed, db1) ∧
      db1.scheduled_tasks = dbT1.scheduled_tasks.map (fun t =>
        if t.id == "t1" then
          { t with last_run_at := some 5, next_run_at := cronNext cronStar 5,
                   updated_at := 5 }
        else t) := by
  obtain ⟨text, db1, heq, harmed, _⟩ :=
    C7_next_run_persisted_only_when_armed execOkHi 5 "r1" schedArmed dbT1 taskT1
  exact ⟨text, db1, heq, harmed cronStar (by decide)⟩

/-- Counterexample for C7 as stated: `runNow` on a task whose timer was
never armed executes it (here successfully) yet persists neither
`lastRunAt` nor a recomputed `nextRunAt` — the task row is unchanged. -/
theorem C7_counterexample :
    runNow execOkHi 5 "r1" schedIdle dbT1 "t1" =
      Except.ok ("hi", schedIdle,
        ⟨[], [], [], [taskT1], [⟨"r1", "t1", "success", some "hi", 5, some 5⟩],
         0⟩) ∧
    taskT1.last_run_at = none ∧ taskT1.next_run_at = none := by
  exact ⟨rfl, rfl, rfl⟩

/-- C10: when the executor fails during `runNow` on an existing task,
`runNow` resolves normally with the failure message as its result text;
an executor that succeeds with the same text yields the identical
return value, the distinction living only in the recorded run status. -/
theorem C10_runNow_failure_resolves (now : Nat) (runId : String)
    (sched : Sched) (db : DB) (taskId : String) (task : TaskRow) (m : String)
    (exec1 exec2 : Executor)
    (htask : getTask db taskId = some task)
    (hfresh : ∀ r ∈ db.task_runs, r.id ≠ runId)
    (h1 : exec1 (task.prompt ++ deliveryInstructionOf task.delivery) =
      ExecOutcome.err m)
    (h2 : exec2 (task.prompt ++ deliveryInstructionOf task.delivery) =
      ExecOutcome.ok (some m)) :
    ∃ dbE dbS,
      runNow exec1 now runId sched db taskId = Except.ok (m, sched, dbE) ∧
      runNow exec2 now runId sched db taskId = Except.ok (m, sched, dbS) ∧
      dbE.task_runs.find? (fun r => r.id == runId) =
        some ⟨runId, task.id, "error", some m, now, some now⟩ ∧
      dbS.task_runs.find? (fun r => r.id == runId) =
        some ⟨runId, task.id, "success", some m, now, some now⟩ := by
  simp only [runNow, htask, executeTask, h1, h2, Option.getD_some]
  cases hc : lookup1 task.id sched.crons with
  | none =>
    exact ⟨_, _, rfl, rfl,
      run_lifecycle_find db now runId task.id "error" m hfresh,
      run_lifecycle_find db now runId task.id "success" m hfresh⟩
  | some c =>
    exact ⟨_, _, rfl, rfl,
      run_lifecycle_find db now runId task.id "error" m hfresh,
      run_lifecycle_find db now runId task.id "success" m hfresh⟩

/-- An executor resolving with the text `boom`. -/
def execOkBoom : Executor := fun _ => ExecOutcome.ok (some "boom")

/-- Witness for C10 on task `t1`. -/
theorem C10_witness :
    ∃ dbE dbS,
      runNow execBoom 5 "r1" schedIdle dbT1 "t1" =
        Except.ok ("boom", schedIdle, dbE) ∧
      runNow execOkBoom 5 "r1" schedIdle dbT1 "t1" =
        Except.ok ("boom", schedIdle, dbS) ∧
      dbE.task_runs.find? (fun r => r.id == "r1") =
        some ⟨"r1", "t1", "error", some "boom", 5, some 5⟩ ∧
      dbS.task_runs.find? (fun r => r.id == "r1") =
        some ⟨"r1", "t1", "success", some "boom", 5, some 5⟩ :=
  C10_runNow_failure_resolves 5 "r1" schedIdle dbT1 "t1" taskT1 "boom"
    execBoom execOkBoom (by decide) (by intro r hr; cases hr) rfl rfl

/-- Counterexample for C4 as stated: `TaskScheduler.runNow` on a missing
task does not return a structured not-found outcome — it throws
(`throw new Error`). -/
theorem C4_counterexample :
    runNow execBoom 0 "r1" schedIdle dbEmpty "missing" =
      Except.error "Task missing not found" := by
  rfl

/-- C4 amended: for an unknown task id, `get` returns absent and the
`update_task`/`delete_task` tools return structured not-found error
objects with nothing written; `Scheduler.runNow` throws an Error, which
the `run_task_now` tool catches and converts into the structured error
object handed to its caller. -/
theorem C4_not_found_structured (gs : Sched) (db : DB) (now : Nat)
    (runId id : String) (exec : Executor) (args : UpdateArgs)
    (hmissing : getTask db id = none) :
    updateTaskExecute (some gs) db now id args =
      (UpdateTaskResult.error ("Task " ++ id ++ " not found"), some gs, db) ∧
    deleteTaskExecute (some gs) db id =
      (DeleteTaskResult.error ("Task " ++ id ++ " not found"), some gs, db) ∧
    runNow exec now runId gs db id =
      Except.error ("Task " ++ id ++ " not found") ∧
    runTaskNowExecute exec (some gs) db now runId id =
      (RunTaskNowResult.error ("Task " ++ id ++ " not found"), db) := by
  refine ⟨?_, ?_, ?_, ?_⟩
  · simp only [updateTaskExecute, hmissing]
  · simp only [deleteTaskExecute, hmissing]
  · simp only [runNow, hmissing]
  · simp only [runTaskNowExecute, runNow, hmissing]

/-- Witness for C4 at the unknown id `missing` on the empty store. -/
theorem C4_witness :
    updateTaskExecute (some schedIdle) dbEmpty 0 "missing"
        ⟨none, none, none, none, none⟩ =
      (UpdateTaskResult.error ("Task " ++ "missing" ++ " not found"),
       some schedIdle, dbEmpty) ∧
    deleteTaskExecute (some schedIdle) dbEmpty "missing" =
      (DeleteTaskResult.error ("Task " ++ "missing" ++ " not found"),
       some schedIdle, dbEmpty) ∧
    runNow execBoom 0 "r1" schedIdle dbEmpty "missing" =
      Except.error ("Task " ++ "missing" ++ " not found") ∧
    runTaskNowExecute execBoom (some schedIdle) dbEmpty 0 "r1" "missing" =
      (RunTaskNowResult.error ("Task " ++ "missing" ++ " not found"),
       dbEmpty) :=
  C4_not_found_structured schedIdle dbEmpty 0 "r1" "missing" execBoom
    ⟨none, none, none, none, none⟩ rfl

/-- Counterexample for C5 as stated: with `ttl = 0` (a valid number,
falsy in JavaScript) the entry is stored with no expiry, so long after
the ttl has elapsed `get` still returns the value instead of absent. -/
theorem C5_counterexample :
    (cacheGet (cacheSet dbEmpty 0 "k" "v" (some 0)) 1000 "k").1 = some "v" ∧
    (0 : Nat) + 0 < 1000 := by decide

/-- C5 amended: for every positive ttl, `set` then immediate `get`
returns the value; strictly after `now + ttl` the entry reads as absent
and is deleted by that read; with ttl absent — or zero, which the code
treats as falsy — the entry never expires. -/
theorem C5_cache_ttl_amended (db : DB) (now : Nat) (k v : String) (ttl : Nat)
    (hpos : 0 < ttl) :
    (cacheGet (cacheSet db now k v (some ttl)) now k).1 = some v ∧
    (∀ now2, now + ttl < now2 →
      (cacheGet (cacheSet db now k v (some ttl)) now2 k).1 = none ∧
      lookup1 k
        ((cacheGet (cacheSet db now k v (some ttl)) now2 k).2.chat_cache) =
        none) ∧
    (∀ now2, (cacheGet (cacheSet db now k v none) now2 k).1 = some v) ∧
    (∀ now2, (cacheGet (cacheSet db now k v (some 0)) now2 k).1 = some v) := by
  have hset : (cacheSet db now k v (some ttl)).chat_cache =
      upsert k ⟨v, some (now + ttl)⟩ db.chat_cache := by
    simp only [cacheSet]
    rw [if_pos (by omega : ttl ≠ 0)]
  have hrow : lookup1 k (cacheSet db now k v (some ttl)).chat_cache =
      some ⟨v, some (now + ttl)⟩ := by
    rw [hset]
    exact lookup1_upsert_self k _ db.chat_cache
  have hrowNone : lookup1 k (cacheSet db now k v none).chat_cache =
      some ⟨v, none⟩ := lookup1_upsert_self k _ db.chat_cache
  have hrowZero : lookup1 k (cacheSet db now k v (some 0)).chat_cache =
      some ⟨v, none⟩ := by
    simp only [cacheSet]
    rw [if_neg (by omega : ¬ (0 : Nat) ≠ 0)]
    exact lookup1_upsert_self k _ db.chat_cache
  refine ⟨?_, ?_, ?_, ?_⟩
  · simp only [cacheGet, hrow]
    rw [if_neg (by omega : ¬ (now + ttl ≠ 0 ∧ now + ttl < now))]
  · intro now2 h2
    constructor
    · simp only [cacheGet, hrow]
      rw [if_pos (by omega : now + ttl ≠ 0 ∧ now + ttl < now2)]
    · simp only [cacheGet, hrow]
      rw [if_pos (by omega : now + ttl ≠ 0 ∧ now + ttl < now2)]
      exact lookup1_deleteKey_self k _
  · intro now2
    simp only [cacheGet, hrowNone]
  · intro now2
    simp only [cacheGet, hrowZero]

/-- Witness for C5 amended at ttl 50. -/
theorem C5_witness :
    (cacheGet (cacheSet dbEmpty 0 "k" "v" (some 50)) 0 "k").1 = some "v" ∧
    (cacheGet (cacheSet dbEmpty 0 "k" "v" (some 50)) 100 "k").1 = none ∧
    lookup1 "k"
      ((cacheGet (cacheSet dbEmpty 0 "k" "v" (some 50)) 100 "k").2.chat_cache)
      = none ∧
    (cacheGet (cacheSet dbEmpty 0 "k" "v" none) 1000000 "k").1 = some "v" := by
  obtain ⟨h1, h2, h3, _⟩ :=
    C5_cache_ttl_amended dbEmpty 0 "k" "v" 50 (by decide)
  have he := h2 100 (by decide)
  exact ⟨h1, he.1, he.2, h3 1000000⟩

/-- `lookup1` through a key-preserving row transformation. -/
theorem lookup1_map_entry {α : Type} (k : String)
    (f : String × α → String × α) (hf : ∀ p, (f p).1 = p.1)
    (l : List (String × α)) :
    lookup1 k (l.map f) =
      (l.find? (fun p => p.1 == k)).map (fun p => (f p).2) := by
  induction l with
  | nil => rfl
  | cons a as ih =>
    simp only [List.map_cons, lookup1, List.find?_cons, hf a]
    cases hk : (a.1 == k) with
    | true => rfl
    | false => simpa only [lookup1] using ih

/-- C8: `extend(lock, ttl)` returns true exactly when the stored token
for the resource equals the presented token — the stored expiry is not
consulted; on success the expiry becomes `now + ttl`; on an unknown
resource or mismatched token it returns false (it is a total function,
it cannot throw) and leaves the store untouched. -/
theorem C8_extend_iff_token_match (db : DB) (now ttl : Nat) (lk : Lock) :
    ((extendLock db now lk ttl).1 = true ↔
      ∃ row, lookup1 lk.threadId db.chat_locks = some row ∧
        row.token = lk.token) ∧
    ((extendLock db now lk ttl).1 = true →
      lookup1 lk.threadId (extendLock db now lk ttl).2.chat_locks =
        some ⟨lk.token, now + ttl⟩) ∧
    ((extendLock db now lk ttl).1 = false →
      (extendLock db now lk ttl).2 = db) := by
  cases hlc : lookup1 lk.threadId db.chat_locks with
  | none =>
    refine ⟨?_, ?_, ?_⟩ <;> simp [extendLock, hlc]
  | some existing =>
    by_cases htok : existing.token = lk.token
    · have hfpres : ∀ p : String × LockRow,
          ((if p.1 == lk.threadId && p.2.token == lk.token then
              (p.1, (⟨p.2.token, now + ttl⟩ : LockRow))
            else p)).1 = p.1 := by
        intro p
        by_cases h : (p.1 == lk.threadId && p.2.token == lk.token) = true
        · rw [if_pos h]
        · rw [if_neg h]
      have hlc' : (db.chat_locks.find? (fun p => p.1 == lk.threadId)).map
          (fun p => p.2) = some existing := hlc
      obtain ⟨p0, hp0, hv⟩ := Option.map_eq_some'.mp hlc'
      have hkey : (p0.1 == lk.threadId) = true := by
        simpa using List.find?_some hp0
      have hcond : (p0.1 == lk.threadId && p0.2.token == lk.token) = true := by
        rw [hkey, hv]
        simp [htok]
      simp only [extendLock, hlc]
      rw [if_neg (by simpa using htok)]
      refine ⟨⟨fun _ => ⟨existing, rfl, htok⟩, fun _ => rfl⟩, ?_,
              fun h => Bool.noConfusion h⟩
      intro _
      rw [show ({ db with chat_locks := db.chat_locks.map (fun p =>
          if p.1 == lk.threadId && p.2.token == lk.token then
            (p.1, (⟨p.2.token, now + ttl⟩ : LockRow))
          else p) } : DB).chat_locks = db.chat_locks.map (fun p =>
          if p.1 == lk.threadId && p.2.token == lk.token then
            (p.1, (⟨p.2.token, now + ttl⟩ : LockRow))
          else p) from rfl]
      rw [lookup1_map_entry lk.threadId _ hfpres db.chat_locks, hp0]
      simp only [Option.map_some']
      rw [if_pos hcond, hv, htok]
    · simp only [extendLock, hlc]
      rw [if_pos htok]
      refine ⟨⟨fun h => Bool.noConfusion h, ?_⟩,
              fun h => Bool.noConfusion h, fun _ => rfl⟩
      rintro ⟨row, hrow, htk⟩
      obtain rfl := Option.some.inj hrow
      exact absurd htk htok

/-- A store holding one lock on `thread-1` with token 7 expiring at 5. -/
def dbOneLock : DB := ⟨[], [("thread-1", ⟨7, 5⟩)], [], [], [], 1⟩

/-- Witness for C8: a matching token extends (even though the stored
expiry, 5, is already past at time 100 — the expiry is not consulted);
a mismatched token fails and changes nothing. -/
theorem C8_witness :
    (extendLock dbOneLock 100 ⟨"thread-1", 7, 5⟩ 50).1 = true ∧
    lookup1 "thread-1"
      (extendLock dbOneLock 100 ⟨"thread-1", 7, 5⟩ 50).2.chat_locks =
      some ⟨7, 150⟩ ∧
    (extendLock dbOneLock 100 ⟨"thread-1", 99, 5⟩ 50).1 = false ∧
    (extendLock dbOneLock 100 ⟨"thread-1", 99, 5⟩ 50).2 = dbOneLock := by
  have h1 := C8_extend_iff_token_match dbOneLock 100 50 ⟨"thread-1", 7, 5⟩
  have h2 := C8_extend_iff_token_match dbOneLock 100 50 ⟨"thread-1", 99, 5⟩
  have ht : (extendLock dbOneLock 100 ⟨"thread-1", 7, 5⟩ 50).1 = true :=
    h1.1.mpr ⟨⟨7, 5⟩, by decide, rfl⟩
  have hf : (extendLock dbOneLock 100 ⟨"thread-1", 99, 5⟩ 50).1 = false := by
    cases hb : (extendLock dbOneLock 100 ⟨"thread-1", 99, 5⟩ 50).1 with
    | false => rfl
    | true =>
      obtain ⟨row, hrow, htk⟩ := h2.1.mp hb
      have hr : (⟨7, 5⟩ : LockRow) = row := Option.some.inj
        ((by decide : lookup1 "thread-1" dbOneLock.chat_locks =
          some ⟨7, 5⟩).symm.trans hrow)
      rw [← hr] at htk
      exact absurd htk (by decide)
  exact ⟨ht, h1.2.1 ht, hf, h2.2.2 hf⟩

end BunAgent
